import Mathlib

/-!
Formal model of the Game of Life implementation in
`src/Game-of-Life/script/main.py`, together with proofs of the
behavioural properties stated in the design document.

A grid is modelled as a total function `Nat → Nat → Nat` with explicit
`rows`/`cols` dimensions; only the in-bounds cells are meaningful, which
mirrors the Python lists of lists (resp. numpy arrays).  Out-of-bounds
reads performed by the convolution are modelled by `padded`, matching
`mode='constant', cval=0.0`.
-/

namespace GameOfLife

/-- A grid of cell values, indexed by row and column. -/
abbrev Grid := Nat → Nat → Nat

/-- The kernel matrix `k = np.array([[1,1,1],[1,0,1],[1,1,1]])` (line 11 of
`main.py`): weight of the kernel entry at position `(i, j)`, `i, j < 3`. -/
def kmat (i j : Nat) : Nat := if i = 1 ∧ j = 1 then 0 else 1

/-- Reading the grid with constant-zero padding: the value used by
`ndimage.convolve(..., mode='constant', cval=0.0)` for position `(r, c)`,
which is the grid value when `(r, c)` is in bounds and `0` otherwise. -/
def padded (rows cols : Nat) (grid : Grid) (r c : Int) : Nat :=
  if 0 ≤ r ∧ r < (rows : Int) ∧ 0 ≤ c ∧ c < (cols : Int) then
    grid r.toNat c.toNat
  else 0

/-- The value at `(r, c)` of `ndimage.convolve(grid, k, mode='constant',
cval=0.0)` (line 119 of `main.py`): the discrete convolution of the grid with
the 3×3 kernel `kmat`, whose origin is the kernel center `(1, 1)`. -/
def ndimage_convolve (rows cols : Nat) (grid : Grid) (r c : Nat) : Nat :=
  Finset.sum (Finset.range 3) fun i =>
    Finset.sum (Finset.range 3) fun j =>
      kmat i j * padded rows cols grid ((r : Int) + 1 - i) ((c : Int) + 1 - j)

/-- The mutable state visible to `create_next_grid`: the current grid and the
caller-supplied next-generation buffer. -/
structure GameState where
  grid : Grid
  next_grid : Grid

/-- Writing value `v` into one cell of a grid (the assignment
`next_grid[row][col] = v`). -/
def setCell (g : Grid) (row col v : Nat) : Grid :=
  fun r c => if r = row ∧ c = col then v else g r c

/-- The body of the double loop of `create_next_grid` (lines 131-140 of
`main.py`) at a fixed `(row, col)`, where `ln` is the precomputed
`live_neighbors` matrix. -/
def cellUpdate (ln : Grid) (s : GameState) (row col : Nat) : GameState :=
  if ln row col < 2 ∨ ln row col > 3 then
    { s with next_grid := setCell s.next_grid row col 0 }
  else if ln row col = 3 ∧ s.grid row col = 0 then
    { s with next_grid := setCell s.next_grid row col 1 }
  else
    { s with next_grid := setCell s.next_grid row col (s.grid row col) }

/-- The inner loop `for col in range(n)` of `create_next_grid` at row `row`. -/
def colLoop (ln : Grid) (row : Nat) : Nat → GameState → GameState
  | 0, s => s
  | n + 1, s => cellUpdate ln (colLoop ln row n s) row n

/-- The outer loop `for row in range(n)` of `create_next_grid`, with `cols`
columns per row. -/
def rowLoop (ln : Grid) (cols : Nat) : Nat → GameState → GameState
  | 0, s => s
  | n + 1, s => colLoop ln n cols (rowLoop ln cols n s)

/-- The function `create_next_grid(rows, cols, grid, next_grid)` (lines
103-140 of `main.py`): compute the `live_neighbors` matrix by convolution,
then run the double loop writing the next generation into `next_grid`. -/
def create_next_grid (rows cols : Nat) (s : GameState) : GameState :=
  let live_neighbors := fun r c => ndimage_convolve rows cols s.grid r c
  rowLoop live_neighbors cols rows s

/-- The value the loop body of `create_next_grid` assigns to cell
`(row, col)`, as a pure function of the current grid and the
`live_neighbors` matrix `ln`. -/
def ruleVal (grid ln : Grid) (row col : Nat) : Nat :=
  if ln row col < 2 ∨ ln row col > 3 then 0
  else if ln row col = 3 ∧ grid row col = 0 then 1
  else grid row col

/-- The pure one-generation step function determined by `create_next_grid`. -/
def step (rows cols : Nat) (grid : Grid) : Grid :=
  fun r c => ruleVal grid (fun a b => ndimage_convolve rows cols grid a b) r c

/-- The function `grid_changing(rows, cols, grid, next_grid)` (lines 143-160
of `main.py`): scan the cells in row-major order and report `true` as soon as
a cell of `grid` differs from the corresponding cell of `next_grid`. -/
def grid_changing (rows cols : Nat) (grid next_grid : Grid) : Bool :=
  (List.range rows).any fun row =>
    (List.range cols).any fun col =>
      decide (¬ grid row col = next_grid row col)

/-- The in-bounds contents of a grid as a list of rows, which is exactly what
`print_grid` renders (one glyph per in-bounds cell). -/
def toLists (rows cols : Nat) (g : Grid) : List (List Nat) :=
  (List.range rows).map fun r => (List.range cols).map fun c => g r c

/-- The list `start, start+1, ..., start+len-1`, modelling the Python
iteration space `range(start, start+len)`. -/
def gen_range (start len : Nat) : List Nat :=
  match len with
  | 0 => []
  | n + 1 => start :: gen_range (start + 1) n

/-- The fixed generation cap `generations = 5000` (line 201 of `main.py`). -/
def generations : Nat := 5000

/-- The observable outcome of the simulation loop of `run_game`: the frames
rendered inside the loop (generation index together with the grid contents
passed to `print_grid`), the final value of the `gen` variable, and the two
grid buffers when the loop ends. -/
structure RunResult where
  frames : List (Nat × List (List Nat))
  gen : Nat
  current : Grid
  next : Grid

/-- The simulation loop `for gen in range(1, generations + 1)` of `run_game`
(lines 232-239 of `main.py`): each iteration checks `grid_changing` and
breaks when it returns false, otherwise renders the current grid, runs
`create_next_grid`, and swaps the two buffers.  The `time.sleep` call has no
effect on the modelled state and is omitted. -/
def life_loop (rows cols : Nat) : List Nat → Nat → Grid → Grid → RunResult
  | [], gv, cur, nxt => ⟨[], gv, cur, nxt⟩
  | g :: rest, _, cur, nxt =>
    if grid_changing rows cols cur nxt then
      let s := create_next_grid rows cols ⟨cur, nxt⟩
      let r := life_loop rows cols rest g s.next_grid cur
      ⟨(g, toLists rows cols cur) :: r.frames, r.gen, r.current, r.next⟩
    else ⟨[], g, cur, nxt⟩

/-- The simulation part of `run_game` (lines 229-241 of `main.py`), from the
point where both buffers exist: run the loop starting at `gen = 1`, then
observe the frames rendered in the loop, the final `gen`, and the final
rendering of `current_generation` done after the loop. -/
def run_game (rows cols : Nat) (current next : Grid) :
    List (Nat × List (List Nat)) × Nat × List (List Nat) :=
  let r := life_loop rows cols (gen_range 1 generations) 1 current next
  (r.frames, r.gen, toLists rows cols r.current)

/-- Spec-side definition, following the spec's words: the count of live cells
among the up-to-8 Moore neighbors of `(r, c)`, an out-of-bounds position
contributing `0`. -/
def neighbor_offsets : List (Int × Int) :=
  [(-1, -1), (-1, 0), (-1, 1), (0, -1), (0, 1), (1, -1), (1, 0), (1, 1)]

/-- Spec-side definition: the number of Moore-neighbor positions of `(r, c)`
holding a live (value `1`) cell, out-of-bounds positions reading as `0`. -/
def moore_live_count (rows cols : Nat) (grid : Grid) (r c : Nat) : Nat :=
  (neighbor_offsets.filter fun d =>
    decide (padded rows cols grid ((r : Int) + d.1) ((c : Int) + d.2) = 1)).length

/-- The sum of the padded grid values over the 8 Moore-neighbor offsets. -/
def moore_sum (rows cols : Nat) (grid : Grid) (r c : Nat) : Nat :=
  (neighbor_offsets.map fun d =>
    padded rows cols grid ((r : Int) + d.1) ((c : Int) + d.2)).sum

/-- A grid whose in-bounds cells all hold `0` or `1`. -/
abbrev binary_grid (rows cols : Nat) (grid : Grid) : Prop :=
  ∀ r, r < rows → ∀ c, c < cols → grid r c = 0 ∨ grid r c = 1

/-- Agreement of two grids on all in-bounds cells. -/
abbrev eq_on (rows cols : Nat) (g h : Grid) : Prop :=
  ∀ r, r < rows → ∀ c, c < cols → g r c = h r c

/-- The horizontal blinker on a 5×5 board: live cells at
`(2,1)`, `(2,2)`, `(2,3)`. -/
def blinkerH : Grid := fun r c => if r = 2 ∧ (c = 1 ∨ c = 2 ∨ c = 3) then 1 else 0

/-- The vertical blinker on a 5×5 board: live cells at
`(1,2)`, `(2,2)`, `(3,2)`. -/
def blinkerV : Grid := fun r c => if c = 2 ∧ (r = 1 ∨ r = 2 ∨ r = 3) then 1 else 0

/-- A 2×2 block of live cells at rows 1-2, columns 1-2, dead elsewhere. -/
def blockG : Grid := fun r c => if (r = 1 ∨ r = 2) ∧ (c = 1 ∨ c = 2) then 1 else 0

/-- The all-dead grid. -/
def deadG : Grid := fun _ _ => 0

/-- A grid with a single live cell at `(1, 1)`. -/
def oneCellG : Grid := fun r c => if r = 1 ∧ c = 1 then 1 else 0

/-- The orbit of the horizontal blinker under the pure step function. -/
def blinker_orbit : Nat → Grid
  | 0 => blinkerH
  | n + 1 => step 5 5 (blinker_orbit n)

/-! ### Characterisation of the imperative double loop of `create_next_grid` -/

lemma cellUpdate_grid (ln : Grid) (t : GameState) (row col : Nat) :
    (cellUpdate ln t row col).grid = t.grid := by
  unfold cellUpdate
  split_ifs <;> rfl

lemma cellUpdate_next_grid (ln : Grid) (t : GameState) (row col : Nat) :
    (cellUpdate ln t row col).next_grid
      = setCell t.next_grid row col (ruleVal t.grid ln row col) := by
  unfold cellUpdate ruleVal
  split_ifs <;> rfl

lemma colLoop_grid (ln : Grid) (row n : Nat) (s : GameState) :
    (colLoop ln row n s).grid = s.grid := by
  induction n with
  | zero => rfl
  | succ n ih => rw [colLoop, cellUpdate_grid, ih]

lemma rowLoop_grid (ln : Grid) (cols n : Nat) (s : GameState) :
    (rowLoop ln cols n s).grid = s.grid := by
  induction n with
  | zero => rfl
  | succ n ih => rw [rowLoop, colLoop_grid, ih]

lemma colLoop_next_grid (ln : Grid) (row n : Nat) (s : GameState) (r c : Nat) :
    (colLoop ln row n s).next_grid r c
      = if r = row ∧ c < n then ruleVal s.grid ln row c else s.next_grid r c := by
  induction n with
  | zero => simp [colLoop]
  | succ n ih =>
    rw [colLoop, cellUpdate_next_grid, colLoop_grid, setCell, ih]
    split_ifs with h1 h2 h3 <;> try rfl
    · rw [h1.2]
    · omega
    · omega
    · omega

lemma rowLoop_next_grid (ln : Grid) (cols n : Nat) (s : GameState) (r c : Nat) :
    (rowLoop ln cols n s).next_grid r c
      = if r < n ∧ c < cols then ruleVal s.grid ln r c else s.next_grid r c := by
  induction n with
  | zero => simp [rowLoop]
  | succ n ih =>
    rw [rowLoop, colLoop_next_grid, rowLoop_grid, ih]
    split_ifs with h1 h2 h3 <;> try rfl
    · rw [h1.1]
    · omega
    · omega
    · omega

lemma create_next_grid_grid (rows cols : Nat) (s : GameState) :
    (create_next_grid rows cols s).grid = s.grid :=
  rowLoop_grid _ cols rows s

lemma create_next_grid_next_grid (rows cols : Nat) (s : GameState) (r c : Nat) :
    (create_next_grid rows cols s).next_grid r c
      = if r < rows ∧ c < cols then step rows cols s.grid r c
        else s.next_grid r c := by
  unfold create_next_grid step
  exact rowLoop_next_grid _ cols rows s r c

/-! ### The convolution computes the Moore-neighborhood sum -/

lemma ndimage_convolve_eq_moore_sum (rows cols : Nat) (grid : Grid) (r c : Nat) :
    ndimage_convolve rows cols grid r c = moore_sum rows cols grid r c := by
  unfold ndimage_convolve moore_sum neighbor_offsets kmat
  simp [Finset.sum_range_succ]
  ring_nf

lemma padded_le_one (rows cols : Nat) (grid : Grid)
    (hbin : binary_grid rows cols grid) (p q : Int) :
    padded rows cols grid p q ≤ 1 := by
  unfold padded
  split_ifs with h
  · obtain ⟨h1, h2, h3, h4⟩ := h
    rcases hbin p.toNat (by omega) q.toNat (by omega) with h5 | h5 <;> omega
  · omega

lemma padded_row_neg (rows cols : Nat) (grid : Grid) (p q : Int) (h : p < 0) :
    padded rows cols grid p q = 0 := by
  unfold padded
  split_ifs with h2
  · omega
  · rfl

lemma padded_row_ge (rows cols : Nat) (grid : Grid) (p q : Int)
    (h : (rows : Int) ≤ p) : padded rows cols grid p q = 0 := by
  unfold padded
  split_ifs with h2
  · omega
  · rfl

lemma padded_col_neg (rows cols : Nat) (grid : Grid) (p q : Int) (h : q < 0) :
    padded rows cols grid p q = 0 := by
  unfold padded
  split_ifs with h2
  · omega
  · rfl

lemma padded_col_ge (rows cols : Nat) (grid : Grid) (p q : Int)
    (h : (cols : Int) ≤ q) : padded rows cols grid p q = 0 := by
  unfold padded
  split_ifs with h2
  · omega
  · rfl

lemma moore_sum_eq_live_count (rows cols : Nat) (grid : Grid)
    (hbin : binary_grid rows cols grid) (r c : Nat) :
    moore_sum rows cols grid r c = moore_live_count rows cols grid r c := by
  unfold moore_sum moore_live_count
  have key : ∀ l : List (Int × Int),
      (l.map fun d => padded rows cols grid ((r : Int) + d.1) ((c : Int) + d.2)).sum
        = (l.filter fun d =>
            decide (padded rows cols grid ((r : Int) + d.1) ((c : Int) + d.2) = 1)).length := by
    intro l
    induction l with
    | nil => rfl
    | cons d ds ih =>
      have hd := padded_le_one rows cols grid hbin ((r : Int) + d.1) ((c : Int) + d.2)
      rw [List.map_cons, List.sum_cons, List.filter_cons, ih]
      interval_cases h : padded rows cols grid ((r : Int) + d.1) ((c : Int) + d.2) <;>
        simp [h] <;> omega
  exact key neighbor_offsets

lemma moore_sum_expand (rows cols : Nat) (grid : Grid) (r c : Nat) :
    moore_sum rows cols grid r c
      = padded rows cols grid ((r : Int) - 1) ((c : Int) - 1)
      + padded rows cols grid ((r : Int) - 1) (c : Int)
      + padded rows cols grid ((r : Int) - 1) ((c : Int) + 1)
      + padded rows cols grid (r : Int) ((c : Int) - 1)
      + padded rows cols grid (r : Int) ((c : Int) + 1)
      + padded rows cols grid ((r : Int) + 1) ((c : Int) - 1)
      + padded rows cols grid ((r : Int) + 1) (c : Int)
      + padded rows cols grid ((r : Int) + 1) ((c : Int) + 1) := by
  unfold moore_sum neighbor_offsets
  simp
  ring_nf

lemma moore_sum_corner_le (rows cols : Nat) (grid : Grid)
    (hbin : binary_grid rows cols grid) (r c : Nat)
    (hr : r = 0 ∨ r = rows - 1) (hc : c = 0 ∨ c = cols - 1)
    (hrb : r < rows) (hcb : c < cols) :
    moore_sum rows cols grid r c ≤ 3 := by
  rw [moore_sum_expand]
  rcases hr with hr | hr <;> rcases hc with hc | hc
  · have z1 := padded_row_neg rows cols grid ((r : Int) - 1) ((c : Int) - 1) (by omega)
    have z2 := padded_row_neg rows cols grid ((r : Int) - 1) (c : Int) (by omega)
    have z3 := padded_row_neg rows cols grid ((r : Int) - 1) ((c : Int) + 1) (by omega)
    have z4 := padded_col_neg rows cols grid (r : Int) ((c : Int) - 1) (by omega)
    have z6 := padded_col_neg rows cols grid ((r : Int) + 1) ((c : Int) - 1) (by omega)
    have b5 := padded_le_one rows cols grid hbin (r : Int) ((c : Int) + 1)
    have b7 := padded_le_one rows cols grid hbin ((r : Int) + 1) (c : Int)
    have b8 := padded_le_one rows cols grid hbin ((r : Int) + 1) ((c : Int) + 1)
    omega
  · have z1 := padded_row_neg rows cols grid ((r : Int) - 1) ((c : Int) - 1) (by omega)
    have z2 := padded_row_neg rows cols grid ((r : Int) - 1) (c : Int) (by omega)
    have z3 := padded_row_neg rows cols grid ((r : Int) - 1) ((c : Int) + 1) (by omega)
    have z5 := padded_col_ge rows cols grid (r : Int) ((c : Int) + 1) (by omega)
    have z8 := padded_col_ge rows cols grid ((r : Int) + 1) ((c : Int) + 1) (by omega)
    have b4 := padded_le_one rows cols grid hbin (r : Int) ((c : Int) - 1)
    have b6 := padded_le_one rows cols grid hbin ((r : Int) + 1) ((c : Int) - 1)
    have b7 := padded_le_one rows cols grid hbin ((r : Int) + 1) (c : Int)
    omega
  · have z6 := padded_row_ge rows cols grid ((r : Int) + 1) ((c : Int) - 1) (by omega)
    have z7 := padded_row_ge rows cols grid ((r : Int) + 1) (c : Int) (by omega)
    have z8 := padded_row_ge rows cols grid ((r : Int) + 1) ((c : Int) + 1) (by omega)
    have z1 := padded_col_neg rows cols grid ((r : Int) - 1) ((c : Int) - 1) (by omega)
    have z4 := padded_col_neg rows cols grid (r : Int) ((c : Int) - 1) (by omega)
    have b2 := padded_le_one rows cols grid hbin ((r : Int) - 1) (c : Int)
    have b3 := padded_le_one rows cols grid hbin ((r : Int) - 1) ((c : Int) + 1)
    have b5 := padded_le_one rows cols grid hbin (r : Int) ((c : Int) + 1)
    omega
  · have z6 := padded_row_ge rows cols grid ((r : Int) + 1) ((c : Int) - 1) (by omega)
    have z7 := padded_row_ge rows cols grid ((r : Int) + 1) (c : Int) (by omega)
    have z8 := padded_row_ge rows cols grid ((r : Int) + 1) ((c : Int) + 1) (by omega)
    have z3 := padded_col_ge rows cols grid ((r : Int) - 1) ((c : Int) + 1) (by omega)
    have z5 := padded_col_ge rows cols grid (r : Int) ((c : Int) + 1) (by omega)
    have b1 := padded_le_one rows cols grid hbin ((r : Int) - 1) ((c : Int) - 1)
    have b2 := padded_le_one rows cols grid hbin ((r : Int) - 1) (c : Int)
    have b4 := padded_le_one rows cols grid hbin (r : Int) ((c : Int) - 1)
    omega

lemma moore_sum_boundary_le (rows cols : Nat) (grid : Grid)
    (hbin : binary_grid rows cols grid) (r c : Nat)
    (h : r = 0 ∨ r = rows - 1 ∨ c = 0 ∨ c = cols - 1)
    (hrb : r < rows) (hcb : c < cols) :
    moore_sum rows cols grid r c ≤ 5 := by
  rw [moore_sum_expand]
  have b1 := padded_le_one rows cols grid hbin ((r : Int) - 1) ((c : Int) - 1)
  have b2 := padded_le_one rows cols grid hbin ((r : Int) - 1) (c : Int)
  have b3 := padded_le_one rows cols grid hbin ((r : Int) - 1) ((c : Int) + 1)
  have b4 := padded_le_one rows cols grid hbin (r : Int) ((c : Int) - 1)
  have b5 := padded_le_one rows cols grid hbin (r : Int) ((c : Int) + 1)
  have b6 := padded_le_one rows cols grid hbin ((r : Int) + 1) ((c : Int) - 1)
  have b7 := padded_le_one rows cols grid hbin ((r : Int) + 1) (c : Int)
  have b8 := padded_le_one rows cols grid hbin ((r : Int) + 1) ((c : Int) + 1)
  rcases h with h | h | h | h
  · have z1 := padded_row_neg rows cols grid ((r : Int) - 1) ((c : Int) - 1) (by omega)
    have z2 := padded_row_neg rows cols grid ((r : Int) - 1) (c : Int) (by omega)
    have z3 := padded_row_neg rows cols grid ((r : Int) - 1) ((c : Int) + 1) (by omega)
    omega
  · have z6 := padded_row_ge rows cols grid ((r : Int) + 1) ((c : Int) - 1) (by omega)
    have z7 := padded_row_ge rows cols grid ((r : Int) + 1) (c : Int) (by omega)
    have z8 := padded_row_ge rows cols grid ((r : Int) + 1) ((c : Int) + 1) (by omega)
    omega
  · have z1 := padded_col_neg rows cols grid ((r : Int) - 1) ((c : Int) - 1) (by omega)
    have z4 := padded_col_neg rows cols grid (r : Int) ((c : Int) - 1) (by omega)
    have z6 := padded_col_neg rows cols grid ((r : Int) + 1) ((c : Int) - 1) (by omega)
    omega
  · have z3 := padded_col_ge rows cols grid ((r : Int) - 1) ((c : Int) + 1) (by omega)
    have z5 := padded_col_ge rows cols grid (r : Int) ((c : Int) + 1) (by omega)
    have z8 := padded_col_ge rows cols grid ((r : Int) + 1) ((c : Int) + 1) (by omega)
    omega

/-! ### Characterisation of `grid_changing` -/

lemma grid_changing_eq_false_iff (rows cols : Nat) (grid ng : Grid) :
    grid_changing rows cols grid ng = false
      ↔ ∀ r, r < rows → ∀ c, c < cols → grid r c = ng r c := by
  unfold grid_changing
  simp [List.any_eq_true, List.mem_range]

/-! ### Congruence: the observable behaviour depends only on in-bounds cells -/

lemma padded_congr (rows cols : Nat) (g h : Grid) (hgh : eq_on rows cols g h)
    (p q : Int) : padded rows cols g p q = padded rows cols h p q := by
  unfold padded
  split_ifs with hb
  · exact hgh p.toNat (by omega) q.toNat (by omega)
  · rfl

lemma ndimage_convolve_congr (rows cols : Nat) (g h : Grid)
    (hgh : eq_on rows cols g h) (r c : Nat) :
    ndimage_convolve rows cols g r c = ndimage_convolve rows cols h r c := by
  unfold ndimage_convolve
  refine Finset.sum_congr rfl fun i _ => Finset.sum_congr rfl fun j _ => ?_
  rw [padded_congr rows cols g h hgh]

lemma step_congr (rows cols : Nat) (g h : Grid) (hgh : eq_on rows cols g h) :
    eq_on rows cols (step rows cols g) (step rows cols h) := by
  intro r hr c hc
  simp only [step, ruleVal]
  simp only [ndimage_convolve_congr rows cols g h hgh r c, hgh r hr c hc]

lemma grid_changing_congr (rows cols : Nat) (g g' n n' : Grid)
    (hg : eq_on rows cols g g') (hn : eq_on rows cols n n') :
    grid_changing rows cols g n = grid_changing rows cols g' n' := by
  rw [Bool.eq_iff_iff]
  simp only [grid_changing, List.any_eq_true, List.mem_range, decide_eq_true_eq]
  constructor
  · rintro ⟨r, hr, c, hc, hne⟩
    refine ⟨r, hr, c, hc, ?_⟩
    rw [← hg r hr c hc, ← hn r hr c hc]
    exact hne
  · rintro ⟨r, hr, c, hc, hne⟩
    refine ⟨r, hr, c, hc, ?_⟩
    rw [hg r hr c hc, hn r hr c hc]
    exact hne

lemma toLists_congr (rows cols : Nat) (g h : Grid) (hgh : eq_on rows cols g h) :
    toLists rows cols g = toLists rows cols h := by
  unfold toLists
  refine List.map_congr_left fun r hr => List.map_congr_left fun c hc => ?_
  rw [List.mem_range] at hr hc
  exact hgh r hr c hc

lemma create_next_grid_congr (rows cols : Nat) (cur cur' nxt nxt' : Grid)
    (hc : eq_on rows cols cur cur') :
    eq_on rows cols (create_next_grid rows cols ⟨cur, nxt⟩).next_grid
      (create_next_grid rows cols ⟨cur', nxt'⟩).next_grid := by
  intro r hr c hcc
  rw [create_next_grid_next_grid, create_next_grid_next_grid,
    if_pos ⟨hr, hcc⟩, if_pos ⟨hr, hcc⟩]
  exact step_congr rows cols cur cur' hc r hr c hcc

lemma life_loop_congr (rows cols : Nat) (gens : List Nat) :
    ∀ gv cur cur' nxt nxt', eq_on rows cols cur cur' → eq_on rows cols nxt nxt' →
      (life_loop rows cols gens gv cur nxt).frames
          = (life_loop rows cols gens gv cur' nxt').frames
      ∧ (life_loop rows cols gens gv cur nxt).gen
          = (life_loop rows cols gens gv cur' nxt').gen
      ∧ eq_on rows cols (life_loop rows cols gens gv cur nxt).current
          (life_loop rows cols gens gv cur' nxt').current := by
  induction gens with
  | nil => exact fun gv cur cur' nxt nxt' hc hn => ⟨rfl, rfl, hc⟩
  | cons g rest ih =>
    intro gv cur cur' nxt nxt' hc hn
    have hgc : grid_changing rows cols cur nxt = grid_changing rows cols cur' nxt' :=
      grid_changing_congr rows cols cur cur' nxt nxt' hc hn
    simp only [life_loop, ← hgc]
    by_cases hb : grid_changing rows cols cur nxt = true
    · simp only [hb, if_true]
      have h2 := ih g (create_next_grid rows cols ⟨cur, nxt⟩).next_grid
        (create_next_grid rows cols ⟨cur', nxt'⟩).next_grid cur cur'
        (create_next_grid_congr rows cols cur cur' nxt nxt' hc) hc
      refine ⟨?_, h2.2.1, h2.2.2⟩
      rw [toLists_congr rows cols cur cur' hc, h2.1]
    · simp only [Bool.not_eq_true] at hb
      simp only [hb, if_false]
      exact ⟨rfl, rfl, hc⟩

/-! ### The generation counter of the simulation loop -/

lemma gen_range_length (start len : Nat) : (gen_range start len).length = len := by
  induction len generalizing start with
  | zero => rfl
  | succ n ih => simp [gen_range, ih]

lemma mem_gen_range (x start len : Nat) :
    x ∈ gen_range start len ↔ start ≤ x ∧ x < start + len := by
  induction len generalizing start with
  | zero => simp [gen_range]
  | succ n ih =>
    simp [gen_range, ih]
    omega

lemma life_loop_cons (rows cols g : Nat) (rest : List Nat) (gv : Nat)
    (cur nxt : Grid) :
    life_loop rows cols (g :: rest) gv cur nxt
      = if grid_changing rows cols cur nxt then
          ⟨(g, toLists rows cols cur) ::
              (life_loop rows cols rest g
                (create_next_grid rows cols ⟨cur, nxt⟩).next_grid cur).frames,
            (life_loop rows cols rest g
              (create_next_grid rows cols ⟨cur, nxt⟩).next_grid cur).gen,
            (life_loop rows cols rest g
              (create_next_grid rows cols ⟨cur, nxt⟩).next_grid cur).current,
            (life_loop rows cols rest g
              (create_next_grid rows cols ⟨cur, nxt⟩).next_grid cur).next⟩
        else ⟨[], g, cur, nxt⟩ := rfl

lemma life_loop_frames_gen_range (rows cols : Nat) :
    ∀ len start gv cur nxt, ∃ m, m ≤ len ∧
      (life_loop rows cols (gen_range start len) gv cur nxt).frames.map Prod.fst
        = gen_range start m := by
  intro len
  induction len with
  | zero => exact fun start gv cur nxt => ⟨0, Nat.le_refl 0, rfl⟩
  | succ n ih =>
    intro start gv cur nxt
    simp only [gen_range, life_loop]
    by_cases hb : grid_changing rows cols cur nxt = true
    · simp only [hb, if_true]
      obtain ⟨m, hm, hmap⟩ := ih (start + 1)
        start (create_next_grid rows cols ⟨cur, nxt⟩).next_grid cur
      refine ⟨m + 1, by omega, ?_⟩
      simp [gen_range, hmap]
    · simp only [Bool.not_eq_true] at hb
      simp only [hb, if_false]
      exact ⟨0, Nat.zero_le _, rfl⟩

lemma life_loop_gen_mem (rows cols : Nat) :
    ∀ len start gv cur nxt,
      (life_loop rows cols (gen_range start len) gv cur nxt).gen = gv
      ∨ (life_loop rows cols (gen_range start len) gv cur nxt).gen ∈ gen_range start len := by
  intro len
  induction len with
  | zero => exact fun start gv cur nxt => Or.inl rfl
  | succ n ih =>
    intro start gv cur nxt
    simp only [gen_range, life_loop]
    by_cases hb : grid_changing rows cols cur nxt = true
    · simp only [hb, if_true]
      rcases ih (start + 1) start (create_next_grid rows cols ⟨cur, nxt⟩).next_grid cur
        with h | h
      · right
        rw [h]
        exact List.mem_cons_self _ _
      · right
        exact List.mem_cons_of_mem _ h
    · simp only [Bool.not_eq_true] at hb
      simp only [hb, if_false]
      right
      exact List.mem_cons_self _ _

/-! ### Grids with at most one live cell -/

lemma padded_single (rows cols : Nat) (g : Grid) (r0 c0 : Nat)
    (hr0 : r0 < rows) (hc0 : c0 < cols) (h1 : g r0 c0 = 1)
    (h0 : ∀ r, r < rows → ∀ c, c < cols → (r ≠ r0 ∨ c ≠ c0) → g r c = 0)
    (p q : Int) :
    padded rows cols g p q = if p = (r0 : Int) ∧ q = (c0 : Int) then 1 else 0 := by
  unfold padded
  split_ifs with hb hpq hpq
  · have hp : p.toNat = r0 := by omega
    have hq : q.toNat = c0 := by omega
    rw [hp, hq]
    exact h1
  · apply h0 p.toNat (by omega) q.toNat (by omega)
    rcases not_and_or.mp hpq with h | h
    · left
      omega
    · right
      omega
  · exfalso
    omega
  · rfl

lemma moore_sum_single (rows cols : Nat) (g : Grid) (r0 c0 : Nat)
    (hr0 : r0 < rows) (hc0 : c0 < cols) (h1 : g r0 c0 = 1)
    (h0 : ∀ r, r < rows → ∀ c, c < cols → (r ≠ r0 ∨ c ≠ c0) → g r c = 0)
    (r c : Nat) :
    moore_sum rows cols g r c ≤ 1 := by
  rw [moore_sum_expand]
  simp only [padded_single rows cols g r0 c0 hr0 hc0 h1 h0]
  split_ifs <;> omega

lemma padded_dead (rows cols : Nat) (g : Grid)
    (h0 : ∀ r, r < rows → ∀ c, c < cols → g r c = 0) (p q : Int) :
    padded rows cols g p q = 0 := by
  unfold padded
  split_ifs with hb
  · exact h0 p.toNat (by omega) q.toNat (by omega)
  · rfl

lemma moore_sum_dead (rows cols : Nat) (g : Grid)
    (h0 : ∀ r, r < rows → ∀ c, c < cols → g r c = 0) (r c : Nat) :
    moore_sum rows cols g r c = 0 := by
  rw [moore_sum_expand]
  simp only [padded_dead rows cols g h0]

/-! ### Claims -/

/-- C1: for every `rows × cols` grid of 0/1 cells, `create_next_grid` sets each
in-bounds cell of `next_grid` to alive (`1`) exactly when its live-neighbor
count is `3`, or its live-neighbor count is `2` and the cell is currently
alive; in every other case the cell is set to dead (`0`). -/
theorem claim_C1_rule (rows cols : Nat) (s : GameState)
    (hbin : binary_grid rows cols s.grid) :
    ∀ r, r < rows → ∀ c, c < cols →
      (create_next_grid rows cols s).next_grid r c
        = if moore_live_count rows cols s.grid r c = 3
             ∨ (moore_live_count rows cols s.grid r c = 2 ∧ s.grid r c = 1)
          then 1 else 0 := by
  intro r hr c hc
  rw [create_next_grid_next_grid, if_pos ⟨hr, hc⟩]
  simp only [step, ruleVal, ndimage_convolve_eq_moore_sum,
    moore_sum_eq_live_count rows cols s.grid hbin]
  have h0 := hbin r hr c hc
  split_ifs <;> omega

/-- Witness for C1: the blinker cell `(1, 2)` has three live neighbors and is
born in the next generation. -/
theorem claim_C1_rule_witness :
    (create_next_grid 5 5 ⟨blinkerH, deadG⟩).next_grid 1 2
      = if moore_live_count 5 5 blinkerH 1 2 = 3
           ∨ (moore_live_count 5 5 blinkerH 1 2 = 2 ∧ blinkerH 1 2 = 1)
        then 1 else 0 :=
  claim_C1_rule 5 5 ⟨blinkerH, deadG⟩ (by decide) 1 (by decide) 2 (by decide)

/-- C2: the neighbor-count matrix computed by the convolution inside
`create_next_grid` equals, at each in-bounds cell, the number of live cells
among the up-to-8 Moore neighbors (out-of-bounds positions contributing 0);
consequently a corner cell counts at most 3 and a boundary cell at most 5. -/
theorem claim_C2_neighbor_count (rows cols : Nat) (grid : Grid)
    (hbin : binary_grid rows cols grid) :
    ∀ r, r < rows → ∀ c, c < cols →
      ndimage_convolve rows cols grid r c = moore_live_count rows cols grid r c
      ∧ ((r = 0 ∨ r = rows - 1) ∧ (c = 0 ∨ c = cols - 1) →
          ndimage_convolve rows cols grid r c ≤ 3)
      ∧ (r = 0 ∨ r = rows - 1 ∨ c = 0 ∨ c = cols - 1 →
          ndimage_convolve rows cols grid r c ≤ 5) := by
  intro r hr c hc
  refine ⟨?_, fun h => ?_, fun h => ?_⟩
  · rw [ndimage_convolve_eq_moore_sum, moore_sum_eq_live_count rows cols grid hbin]
  · rw [ndimage_convolve_eq_moore_sum]
    exact moore_sum_corner_le rows cols grid hbin r c h.1 h.2 hr hc
  · rw [ndimage_convolve_eq_moore_sum]
    exact moore_sum_boundary_le rows cols grid hbin r c h hr hc

/-- Witness for C2: the corner `(0, 0)` of the block grid. -/
theorem claim_C2_neighbor_count_witness :
    ndimage_convolve 4 4 blockG 0 0 = moore_live_count 4 4 blockG 0 0
    ∧ ndimage_convolve 4 4 blockG 0 0 ≤ 3 := by
  have h := claim_C2_neighbor_count 4 4 blockG (by decide) 0 (by decide) 0 (by decide)
  exact ⟨h.1, h.2.1 ⟨Or.inl rfl, Or.inl rfl⟩⟩

/-- C5: `grid_changing` returns `false` exactly when the two grids agree on
every in-bounds cell, and returns `true` whenever at least one in-bounds cell
differs. -/
theorem claim_C5_grid_changing (rows cols : Nat) (grid ng : Grid) :
    (grid_changing rows cols grid ng = false
      ↔ ∀ r, r < rows → ∀ c, c < cols → grid r c = ng r c)
    ∧ ((∃ r, r < rows ∧ ∃ c, c < cols ∧ grid r c ≠ ng r c) →
        grid_changing rows cols grid ng = true) := by
  refine ⟨grid_changing_eq_false_iff rows cols grid ng, ?_⟩
  rintro ⟨r, hr, c, hc, hne⟩
  cases hB : grid_changing rows cols grid ng with
  | true => rfl
  | false =>
    exact absurd ((grid_changing_eq_false_iff rows cols grid ng).mp hB r hr c hc) hne

/-- Witness for C5: the horizontal and vertical blinkers differ at `(2, 1)`. -/
theorem claim_C5_grid_changing_witness :
    grid_changing 5 5 blinkerH blinkerV = true :=
  (claim_C5_grid_changing 5 5 blinkerH blinkerV).2
    ⟨2, by decide, 1, by decide, by decide⟩

/-- C7: a grid with exactly one live cell steps to the all-dead grid, and the
all-dead grid is a fixed point of the step. -/
theorem claim_C7_lonely_cell (rows cols : Nat) (s : GameState) (r0 c0 : Nat) :
    (r0 < rows → c0 < cols → s.grid r0 c0 = 1 →
      (∀ r, r < rows → ∀ c, c < cols → (r ≠ r0 ∨ c ≠ c0) → s.grid r c = 0) →
      ∀ r, r < rows → ∀ c, c < cols → (create_next_grid rows cols s).next_grid r c = 0)
    ∧ ((∀ r, r < rows → ∀ c, c < cols → s.grid r c = 0) →
      ∀ r, r < rows → ∀ c, c < cols → (create_next_grid rows cols s).next_grid r c = 0) := by
  constructor
  · intro hr0 hc0 h1 h0 r hr c hc
    rw [create_next_grid_next_grid, if_pos ⟨hr, hc⟩]
    simp only [step, ruleVal, ndimage_convolve_eq_moore_sum]
    have hle := moore_sum_single rows cols s.grid r0 c0 hr0 hc0 h1 h0 r c
    have hcell : s.grid r c = 0 ∨ s.grid r c = 1 := by
      by_cases hsame : r = r0 ∧ c = c0
      · right
        rw [hsame.1, hsame.2]
        exact h1
      · left
        apply h0 r hr c hc
        rcases not_and_or.mp hsame with h | h
        · exact Or.inl h
        · exact Or.inr h
    split_ifs <;> omega
  · intro h0 r hr c hc
    rw [create_next_grid_next_grid, if_pos ⟨hr, hc⟩]
    simp only [step, ruleVal, ndimage_convolve_eq_moore_sum]
    have hz := moore_sum_dead rows cols s.grid h0 r c
    have hcell := h0 r hr c hc
    split_ifs <;> omega

/-- Witness for C7: the single live cell at `(1, 1)` of a 3×3 grid dies. -/
theorem claim_C7_lonely_cell_witness :
    (create_next_grid 3 3 ⟨oneCellG, blockG⟩).next_grid 1 1 = 0
    ∧ (create_next_grid 3 3 ⟨deadG, blockG⟩).next_grid 2 2 = 0 :=
  ⟨(claim_C7_lonely_cell 3 3 ⟨oneCellG, blockG⟩ 1 1).1 (by decide) (by decide)
      (by decide) (by decide) 1 (by decide) 1 (by decide),
    (claim_C7_lonely_cell 3 3 ⟨deadG, blockG⟩ 0 0).2 (by decide) 2 (by decide)
      2 (by decide)⟩

/-- C9: `create_next_grid` has no side effect on the current grid — the
`grid` component of the state is returned unchanged, every write going to
`next_grid`, and no cell outside the iterated `rows × cols` region of
`next_grid` is touched.  (`grid_changing` and the neighbor-count computation
are modelled as pure functions of their arguments, matching the source, which
never assigns to `grid`.) -/
theorem claim_C9_no_side_effects (rows cols : Nat) (s : GameState) :
    (create_next_grid rows cols s).grid = s.grid
    ∧ ∀ r c : Nat, ¬(r < rows ∧ c < cols) →
        (create_next_grid rows cols s).next_grid r c = s.next_grid r c := by
  refine ⟨create_next_grid_grid rows cols s, fun r c h => ?_⟩
  rw [create_next_grid_next_grid, if_neg h]

/-- Witness for C9: a cell outside the 5×5 region keeps its buffer value. -/
theorem claim_C9_no_side_effects_witness :
    (create_next_grid 5 5 ⟨blinkerH, blinkerV⟩).next_grid 7 0 = blinkerV 7 0 :=
  (claim_C9_no_side_effects 5 5 ⟨blinkerH, blinkerV⟩).2 7 0 (by decide)

/-- C10: the step preserves the binary invariant — starting from a grid of
0/1 cells, every in-bounds cell written by `create_next_grid` is `0` or `1`
(each written value is the literal `0`, the literal `1`, or a copy of an
input cell), and cells outside the `rows × cols` region are untouched, so the
dimensions are unchanged. -/
theorem claim_C10_binary_preserved (rows cols : Nat) (s : GameState)
    (hbin : binary_grid rows cols s.grid) :
    (∀ r, r < rows → ∀ c, c < cols →
      (create_next_grid rows cols s).next_grid r c = 0
      ∨ (create_next_grid rows cols s).next_grid r c = 1)
    ∧ ∀ r c : Nat, ¬(r < rows ∧ c < cols) →
        (create_next_grid rows cols s).next_grid r c = s.next_grid r c := by
  constructor
  · intro r hr c hc
    rw [create_next_grid_next_grid, if_pos ⟨hr, hc⟩]
    simp only [step, ruleVal]
    have h0 := hbin r hr c hc
    split_ifs <;> omega
  · intro r c h
    rw [create_next_grid_next_grid, if_neg h]

/-- Witness for C10: the blinker step writes a binary value at `(2, 2)` and
leaves the out-of-bounds cell `(9, 9)` alone. -/
theorem claim_C10_binary_preserved_witness :
    ((create_next_grid 5 5 ⟨blinkerH, blinkerV⟩).next_grid 2 2 = 0
      ∨ (create_next_grid 5 5 ⟨blinkerH, blinkerV⟩).next_grid 2 2 = 1)
    ∧ (create_next_grid 5 5 ⟨blinkerH, blinkerV⟩).next_grid 9 9 = blinkerV 9 9 :=
  ⟨(claim_C10_binary_preserved 5 5 ⟨blinkerH, blinkerV⟩ (by decide)).1
      2 (by decide) 2 (by decide),
    (claim_C10_binary_preserved 5 5 ⟨blinkerH, blinkerV⟩ (by decide)).2
      9 9 (by decide)⟩

lemma eq_on_refl (rows cols : Nat) (g : Grid) : eq_on rows cols g g :=
  fun _ _ _ _ => rfl

lemma eq_on_trans (rows cols : Nat) (f g h : Grid) (h1 : eq_on rows cols f g)
    (h2 : eq_on rows cols g h) : eq_on rows cols f h :=
  fun r hr c hc => (h1 r hr c hc).trans (h2 r hr c hc)

lemma step_blinkerH_eq : eq_on 5 5 (step 5 5 blinkerH) blinkerV := by decide

lemma step_blinkerV_eq : eq_on 5 5 (step 5 5 blinkerV) blinkerH := by decide

lemma step_blockG_eq : eq_on 4 4 (step 4 4 blockG) blockG := by decide

lemma blinker_orbit_alt (n : Nat) :
    (eq_on 5 5 (blinker_orbit n) blinkerH ∧ eq_on 5 5 (blinker_orbit (n + 1)) blinkerV)
    ∨ (eq_on 5 5 (blinker_orbit n) blinkerV ∧ eq_on 5 5 (blinker_orbit (n + 1)) blinkerH) := by
  induction n with
  | zero => exact Or.inl ⟨eq_on_refl 5 5 blinkerH, step_blinkerH_eq⟩
  | succ n ih =>
    rcases ih with ⟨h1, h2⟩ | ⟨h1, h2⟩
    · exact Or.inr ⟨h2, eq_on_trans 5 5 _ _ _ (step_congr 5 5 _ _ h2) step_blinkerV_eq⟩
    · exact Or.inl ⟨h2, eq_on_trans 5 5 _ _ _ (step_congr 5 5 _ _ h2) step_blinkerH_eq⟩

lemma blinker_changing (n : Nat) :
    grid_changing 5 5 (blinker_orbit n) (blinker_orbit (n + 1)) = true := by
  rcases blinker_orbit_alt n with ⟨h1, h2⟩ | ⟨h1, h2⟩
  · rw [grid_changing_congr 5 5 _ blinkerH _ blinkerV h1 h2]
    decide
  · rw [grid_changing_congr 5 5 _ blinkerV _ blinkerH h1 h2]
    decide

/-- C6: one application of `create_next_grid` to the 5×5 horizontal blinker
yields the vertical blinker on the board, a second application returns the
horizontal blinker (period-2 round trip), and consecutive generations of the
blinker orbit always differ, so `grid_changing` never reports convergence. -/
theorem claim_C6_blinker (buf1 buf2 : Grid) :
    (∀ r, r < 5 → ∀ c, c < 5 →
      (create_next_grid 5 5 ⟨blinkerH, buf1⟩).next_grid r c = blinkerV r c)
    ∧ (∀ r, r < 5 → ∀ c, c < 5 →
      (create_next_grid 5 5
          ⟨(create_next_grid 5 5 ⟨blinkerH, buf1⟩).next_grid, buf2⟩).next_grid r c
        = blinkerH r c)
    ∧ ∀ n, grid_changing 5 5 (blinker_orbit n) (blinker_orbit (n + 1)) = true := by
  have hg1 : eq_on 5 5 (create_next_grid 5 5 ⟨blinkerH, buf1⟩).next_grid blinkerV := by
    intro r hr c hc
    rw [create_next_grid_next_grid, if_pos ⟨hr, hc⟩]
    exact step_blinkerH_eq r hr c hc
  refine ⟨hg1, ?_, blinker_changing⟩
  intro r hr c hc
  rw [create_next_grid_next_grid, if_pos ⟨hr, hc⟩]
  exact eq_on_trans 5 5 _ _ _ (step_congr 5 5 _ _ hg1) step_blinkerV_eq r hr c hc

/-- Witness for C6: the cell `(1, 2)` is born in the first step, the cell
`(2, 1)` is reborn in the second, and generations 0 and 1 differ. -/
theorem claim_C6_blinker_witness :
    (create_next_grid 5 5 ⟨blinkerH, deadG⟩).next_grid 1 2 = blinkerV 1 2
    ∧ (create_next_grid 5 5
        ⟨(create_next_grid 5 5 ⟨blinkerH, deadG⟩).next_grid, deadG⟩).next_grid 2 1
      = blinkerH 2 1
    ∧ grid_changing 5 5 (blinker_orbit 0) (blinker_orbit 1) = true :=
  ⟨(claim_C6_blinker deadG deadG).1 1 (by decide) 2 (by decide),
    (claim_C6_blinker deadG deadG).2.1 2 (by decide) 1 (by decide),
    (claim_C6_blinker deadG deadG).2.2 0⟩

/-- C8: the generation counter of `run_game`'s loop starts at 1 and increases
by exactly 1 on each non-terminal iteration (the rendered generation indices
are `1, 2, ..., k`), the loop performs at most `generations = 5000`
iterations, and the final value of `gen` stays between 1 and 5000. -/
theorem claim_C8_generation_counter (rows cols : Nat) (cur nxt : Grid) :
    (run_game rows cols cur nxt).1.map Prod.fst
        = gen_range 1 (run_game rows cols cur nxt).1.length
    ∧ (run_game rows cols cur nxt).1.length ≤ generations
    ∧ 1 ≤ (run_game rows cols cur nxt).2.1
    ∧ (run_game rows cols cur nxt).2.1 ≤ generations := by
  obtain ⟨m, hm, hmap⟩ := life_loop_frames_gen_range rows cols generations 1 1 cur nxt
  have hlen : (life_loop rows cols (gen_range 1 generations) 1 cur nxt).frames.length = m := by
    have h2 := congrArg List.length hmap
    simpa [gen_range_length] using h2
  have hgen := life_loop_gen_mem rows cols generations 1 1 cur nxt
  refine ⟨?_, ?_, ?_, ?_⟩
  · show (life_loop rows cols (gen_range 1 generations) 1 cur nxt).frames.map Prod.fst
        = gen_range 1 (life_loop rows cols (gen_range 1 generations) 1 cur nxt).frames.length
    rw [hlen]
    exact hmap
  · show (life_loop rows cols (gen_range 1 generations) 1 cur nxt).frames.length ≤ generations
    omega
  · show 1 ≤ (life_loop rows cols (gen_range 1 generations) 1 cur nxt).gen
    rcases hgen with h | h
    · omega
    · rw [mem_gen_range] at h
      omega
  · show (life_loop rows cols (gen_range 1 generations) 1 cur nxt).gen ≤ generations
    rcases hgen with h | h
    · rw [h]
      decide
    · rw [mem_gen_range] at h
      omega

/-- C3 counterexample: for the block initial grid with an all-dead initial
next buffer, the freshly computed successor of the block is the block itself,
yet the very first stability comparison reports a change (it compares against
the arbitrary buffer, not the successor), one frame is rendered, and the loop
stops at generation 2 — not immediately at the first comparison. -/
theorem claim_C3_counterexample :
    (∀ r, r < 4 → ∀ c, c < 4 → step 4 4 blockG r c = blockG r c)
    ∧ grid_changing 4 4 blockG deadG = true
    ∧ (run_game 4 4 blockG deadG).1.length = 1
    ∧ (run_game 4 4 blockG deadG).2.1 = 2 := by
  exact ⟨by decide, by decide, by decide, by decide⟩

/-- C3 amended: each iteration's stability test compares the current grid
with the contents of the other buffer — the arbitrarily initialized `next`
buffer on the first iteration, the previous generation afterwards — not with
a freshly computed successor of the current grid; when the test reports no
change the loop stops without advancing further.  For the block initial grid
and any initial buffer that differs from it in bounds, the first comparison
reports a change, the block is rendered once as generation 1, and the loop
stops at the second comparison with `gen = 2`, the final grid still the
block. -/
theorem claim_C3_amended_thm (nxt : Grid)
    (h : grid_changing 4 4 blockG nxt = true) :
    (run_game 4 4 blockG nxt).1 = [(1, toLists 4 4 blockG)]
    ∧ (run_game 4 4 blockG nxt).2.1 = 2
    ∧ (run_game 4 4 blockG nxt).2.2 = toLists 4 4 blockG := by
  have h1 : eq_on 4 4 (create_next_grid 4 4 ⟨blockG, nxt⟩).next_grid blockG := by
    intro r hr c hc
    rw [create_next_grid_next_grid, if_pos ⟨hr, hc⟩]
    exact step_blockG_eq r hr c hc
  have h2 : grid_changing 4 4 (create_next_grid 4 4 ⟨blockG, nxt⟩).next_grid blockG
      = false := by
    rw [grid_changing_congr 4 4 _ blockG _ blockG h1 (eq_on_refl 4 4 blockG)]
    decide
  have e1 : gen_range 1 generations = 1 :: 2 :: gen_range 3 4998 := rfl
  have key : (life_loop 4 4 (gen_range 1 generations) 1 blockG nxt).frames
        = [(1, toLists 4 4 blockG)]
      ∧ (life_loop 4 4 (gen_range 1 generations) 1 blockG nxt).gen = 2
      ∧ (life_loop 4 4 (gen_range 1 generations) 1 blockG nxt).current
        = (create_next_grid 4 4 ⟨blockG, nxt⟩).next_grid := by
    rw [e1, life_loop_cons, if_pos h, life_loop_cons,
      if_neg (by rw [h2]; exact Bool.false_ne_true)]
    exact ⟨rfl, rfl, rfl⟩
  refine ⟨?_, ?_, ?_⟩
  · show (life_loop 4 4 (gen_range 1 generations) 1 blockG nxt).frames = _
    exact key.1
  · show (life_loop 4 4 (gen_range 1 generations) 1 blockG nxt).gen = 2
    exact key.2.1
  · show toLists 4 4 (life_loop 4 4 (gen_range 1 generations) 1 blockG nxt).current
        = toLists 4 4 blockG
    rw [key.2.2]
    exact toLists_congr 4 4 _ _ h1

/-- Witness for the amended C3, at the all-dead initial buffer. -/
theorem claim_C3_amended_witness :
    grid_changing 4 4 blockG deadG = true
    ∧ (run_game 4 4 blockG deadG).2.2 = toLists 4 4 blockG :=
  ⟨by decide, (claim_C3_amended_thm deadG (by decide)).2.2⟩

/-- C4 counterexample: with the all-dead 4×4 initial grid, an initial next
buffer equal to the grid stops the loop immediately at generation 1 with no
frame rendered, while a differing buffer renders one frame and stops at
generation 2 — the initial buffer content is read by the first stability
check before being overwritten, so it is observable. -/
theorem claim_C4_counterexample :
    run_game 4 4 deadG deadG ≠ run_game 4 4 deadG blockG := by decide

/-- C4 amended: the initial content of the `next` buffer is read exactly
once, by the first stability comparison; provided that comparison reports a
change (the buffer differs in bounds from the initial grid), the buffer is
fully overwritten before any further read, so any two such initial buffers
yield identical rendered frames, final generation, and final grid. -/
theorem claim_C4_amended_thm (rows cols : Nat) (cur nxt nxt' : Grid)
    (h : grid_changing rows cols cur nxt = true)
    (h' : grid_changing rows cols cur nxt' = true) :
    run_game rows cols cur nxt = run_game rows cols cur nxt' := by
  have e1 : gen_range 1 generations = 1 :: gen_range 2 4999 := rfl
  have key : ∀ nn : Grid, grid_changing rows cols cur nn = true →
      (life_loop rows cols (gen_range 1 generations) 1 cur nn).frames
          = (1, toLists rows cols cur) ::
            (life_loop rows cols (gen_range 2 4999) 1
              (create_next_grid rows cols ⟨cur, nn⟩).next_grid cur).frames
      ∧ (life_loop rows cols (gen_range 1 generations) 1 cur nn).gen
          = (life_loop rows cols (gen_range 2 4999) 1
              (create_next_grid rows cols ⟨cur, nn⟩).next_grid cur).gen
      ∧ (life_loop rows cols (gen_range 1 generations) 1 cur nn).current
          = (life_loop rows cols (gen_range 2 4999) 1
              (create_next_grid rows cols ⟨cur, nn⟩).next_grid cur).current := by
    intro nn hnn
    rw [e1, life_loop_cons, if_pos hnn]
    exact ⟨rfl, rfl, rfl⟩
  obtain ⟨hf1, hg1, hc1⟩ := key nxt h
  obtain ⟨hf2, hg2, hc2⟩ := key nxt' h'
  obtain ⟨hf, hg, hcur⟩ := life_loop_congr rows cols (gen_range 2 4999) 1
    (create_next_grid rows cols ⟨cur, nxt⟩).next_grid
    (create_next_grid rows cols ⟨cur, nxt'⟩).next_grid cur cur
    (create_next_grid_congr rows cols cur cur nxt nxt' (eq_on_refl rows cols cur))
    (eq_on_refl rows cols cur)
  show ((life_loop rows cols (gen_range 1 generations) 1 cur nxt).frames,
        (life_loop rows cols (gen_range 1 generations) 1 cur nxt).gen,
        toLists rows cols (life_loop rows cols (gen_range 1 generations) 1 cur nxt).current)
      = ((life_loop rows cols (gen_range 1 generations) 1 cur nxt').frames,
        (life_loop rows cols (gen_range 1 generations) 1 cur nxt').gen,
        toLists rows cols (life_loop rows cols (gen_range 1 generations) 1 cur nxt').current)
  rw [hf1, hf2, hg1, hg2, hc1, hc2, hf, hg, toLists_congr rows cols _ _ hcur]

/-- Witness for the amended C4: two different live initial buffers over the
all-dead grid produce identical runs. -/
theorem claim_C4_amended_witness :
    grid_changing 4 4 deadG blockG = true
    ∧ grid_changing 4 4 deadG oneCellG = true
    ∧ run_game 4 4 deadG blockG = run_game 4 4 deadG oneCellG :=
  ⟨by decide, by decide,
    claim_C4_amended_thm 4 4 deadG blockG oneCellG (by decide) (by decide)⟩

end GameOfLife
